import Mathlib

/-!
Shallow embedding of the butterfly-spread calculation module
(`src/lib/butterflyCalculations.ts`) of the nifty-pulse repository,
together with theorems checking the natural-language specification
against it.

Modelling conventions:
* Every JavaScript number that the module manipulates is modelled as a
  rational number `ℚ`; a field that may be `null`/`undefined` is an
  `Option ℚ` (the embedding does not distinguish `null` from
  `undefined`: the module only ever observes them through `??`,
  `!== undefined` and truthiness, which agree on the inputs the claims
  quantify over).  IEEE-754 artefacts (`NaN`, signed zero, rounding)
  are outside the model.
* The heterogeneous `any[]` rows of the raw feed are modelled by one
  structure, `OptionRecord`, carrying every field the module reads,
  each optional.  String-valued fields (`option_type`, `symbol`) are
  `Option String`.
* The JavaScript nullish-coalescing operator `a ?? b` is `jsNullish`,
  and the numeric truthiness operator `a || b` is `jsNumOr` /
  `jsOptNumOr` (in `ℚ` the only falsy number is `0`).
* `Array.prototype.sort` (stable since ES2019) is modelled by
  `List.insertionSort`, which is stable; the claims only rely on the
  output being sorted for the comparator's total preorder.
* `Math.round` is Mathlib's `round` (`⌊x + 1/2⌋`), which agrees with
  the JavaScript function on the non-negative arguments that occur.
-/

namespace Butterfly

/-- Option side, the TS string union `'CALL' | 'PUT'`. -/
inductive OptionType where
  | CALL
  | PUT
deriving DecidableEq

/-- Recommendation labels, the TS union `DetailedRecommendation`
(the 8 declared labels). -/
inductive DetailedRecommendation where
  | ENTRY
  | HOLD
  | EXIT
  | AVOID
  | SCALE
  | PROFIT_BOOKING
  | CHAIN_WARNING
  | VALUE_BREACH
deriving DecidableEq

/-- Nested quote object (the `CE` / `PE` sub-records built by the
normalizer: `{ bidprice, askprice, ltp }`). -/
structure Quotes where
  bidprice : Option ℚ
  askprice : Option ℚ
  ltp : Option ℚ
deriving DecidableEq

/-- One row of the (dynamically shaped) option-chain array.  Raw feed
rows populate the upper block of fields; normalized per-strike rows
populate the lower block.  Every field the TS module reads appears
here, as an optional value. -/
structure OptionRecord where
  strike_price : Option ℚ
  option_type : Option String
  symbol : Option String
  ltp : Option ℚ
  bid_price : Option ℚ
  bid : Option ℚ
  ask_price : Option ℚ
  ask : Option ℚ
  open_interest : Option ℚ
  oi : Option ℚ
  call_ltp : Option ℚ
  call_oi : Option ℚ
  call_bid : Option ℚ
  call_ask : Option ℚ
  put_ltp : Option ℚ
  put_oi : Option ℚ
  put_bid : Option ℚ
  put_ask : Option ℚ
  CE : Option Quotes
  PE : Option Quotes
deriving DecidableEq

/-- Record with every field absent; `{ strike_price: strike }` objects
are built from it. -/
def emptyRecord : OptionRecord :=
  { strike_price := none, option_type := none, symbol := none,
    ltp := none, bid_price := none, bid := none, ask_price := none,
    ask := none, open_interest := none, oi := none,
    call_ltp := none, call_oi := none, call_bid := none,
    call_ask := none, put_ltp := none, put_oi := none,
    put_bid := none, put_ask := none, CE := none, PE := none }

/-- JavaScript nullish coalescing `a ?? b`. -/
def jsNullish : Option α → Option α → Option α
  | some v, _ => some v
  | none, b => b

/-- JavaScript `x || y` on two numbers (in the `ℚ` model the only
falsy number is `0`). -/
def jsNumOr (x y : ℚ) : ℚ :=
  if x = 0 then y else x

/-- JavaScript `v || y` where `v` may also be `undefined` (absent). -/
def jsOptNumOr (v : Option ℚ) (y : ℚ) : ℚ :=
  match v with
  | some x => if x = 0 then y else x
  | none => y

/-- Substring test used for `item.symbol?.includes('CE')`:
`s.splitOn sep` has at least two pieces exactly when `sep` occurs. -/
def containsCE (s : String) : Bool :=
  2 ≤ (s.splitOn "CE").length

/-- Test `item.option_type === 'CE' || item.symbol?.includes('CE')`
routing a raw row to the call side. -/
def isCallItem (item : OptionRecord) : Bool :=
  item.option_type == some "CE" ||
    (match item.symbol with
     | some s => containsCE s
     | none => false)

/-- Merge one raw row into the per-strike entry (the body of the
`optionsOnly.forEach` in `transformOptionDataForButterfly`): each
`entry.f = item.a ?? item.b ?? entry.f` keeps the previously set value
when the incoming row lacks the field. -/
def updateEntry (e item : OptionRecord) : OptionRecord :=
  if isCallItem item then
    { e with
      call_ltp := jsNullish item.ltp e.call_ltp,
      call_oi := jsNullish item.open_interest (jsNullish item.oi e.call_oi),
      call_bid := jsNullish item.bid_price (jsNullish item.bid e.call_bid),
      call_ask := jsNullish item.ask_price (jsNullish item.ask e.call_ask),
      CE := some
        { bidprice := jsNullish item.bid_price
            (jsNullish item.bid ((e.CE).bind Quotes.bidprice)),
          askprice := jsNullish item.ask_price
            (jsNullish item.ask ((e.CE).bind Quotes.askprice)),
          ltp := jsNullish item.ltp ((e.CE).bind Quotes.ltp) } }
  else
    { e with
      put_ltp := jsNullish item.ltp e.put_ltp,
      put_oi := jsNullish item.open_interest (jsNullish item.oi e.put_oi),
      put_bid := jsNullish item.bid_price (jsNullish item.bid e.put_bid),
      put_ask := jsNullish item.ask_price (jsNullish item.ask e.put_ask),
      PE := some
        { bidprice := jsNullish item.bid_price
            (jsNullish item.bid ((e.PE).bind Quotes.bidprice)),
          askprice := jsNullish item.ask_price
            (jsNullish item.ask ((e.PE).bind Quotes.askprice)),
          ltp := jsNullish item.ltp ((e.PE).bind Quotes.ltp) } }

/-- Insertion-ordered map update for the `strikeMap`: the first row
for a strike creates `{ strike_price: strike }`, later rows for the
same strike mutate the stored entry in place. -/
def upsertStrike (m : List OptionRecord) (strike : ℚ) (item : OptionRecord) :
    List OptionRecord :=
  match m with
  | [] => [updateEntry { emptyRecord with strike_price := some strike } item]
  | e :: rest =>
    if e.strike_price = some strike then updateEntry e item :: rest
    else e :: upsertStrike rest strike item

/-- Fold the raw rows into the insertion-ordered `strikeMap`.  A row
whose `strike_price` is absent is skipped (the TS guard
`if (!strike && strike !== 0) return` fires only on absent values in
this model; `0` is explicitly kept by the source). -/
def buildStrikeMap (items : List OptionRecord) : List OptionRecord :=
  items.foldl
    (fun m item =>
      match item.strike_price with
      | none => m
      | some strike => upsertStrike m strike item)
    []

/-- Comparator `(a, b) => a.strike_price - b.strike_price` as a total
preorder (entries built by the normalizer always carry a strike). -/
def recordLE (a b : OptionRecord) : Prop :=
  a.strike_price.getD 0 ≤ b.strike_price.getD 0

instance recordLE_decidable : DecidableRel recordLE := fun a b =>
  inferInstanceAs (Decidable (a.strike_price.getD 0 ≤ b.strike_price.getD 0))

instance recordLE_isTotal : IsTotal OptionRecord recordLE :=
  ⟨fun a b => le_total (a.strike_price.getD 0) (b.strike_price.getD 0)⟩

instance recordLE_isTrans : IsTrans OptionRecord recordLE :=
  ⟨fun _ _ _ hab hbc => le_trans hab hbc⟩

/-- Embedding of `transformOptionDataForButterfly`: pass already
transformed data through (minus the `-1` sentinel row), otherwise
group raw rows by strike and sort the merged entries by strike. -/
def transformOptionDataForButterfly (rawData : List OptionRecord) :
    List OptionRecord :=
  if rawData.any (fun d => d.call_ltp.isSome || d.put_ltp.isSome) then
    rawData.filter (fun d => decide (d.strike_price ≠ some (-1)))
  else
    List.insertionSort recordLE
      (buildStrikeMap
        (rawData.filter (fun d => decide (d.strike_price ≠ some (-1)))))

/-- Result record `{ rate, firstLegPremium }` of the pricer. -/
structure ButterflyResult where
  rate : ℚ
  firstLegPremium : ℚ
deriving DecidableEq

/-- Per-leg quote triple returned by the pricer's `extract` helper. -/
structure LegQuotes where
  bid : Option ℚ
  ask : Option ℚ
  ltp : Option ℚ
deriving DecidableEq

/-- Embedding of `toNumberOrNull`: on the `ℚ`-valued model the
`Number(v)` coercion and the finiteness test are the identity, and
`null`/`undefined` are already `none`. -/
def toNumberOrNull (v : Option ℚ) : Option ℚ := v

/-- Embedding of the pricer's `extract` helper (the unreachable
`if (!option)` branch is dropped: every call site has already matched
the record against `some`). -/
def extract (option : OptionRecord) (opType : OptionType) : LegQuotes :=
  match opType with
  | .CALL =>
    { bid := toNumberOrNull
        (jsNullish (jsNullish option.call_bid ((option.CE).bind Quotes.bidprice))
          option.call_bid),
      ask := toNumberOrNull
        (jsNullish (jsNullish option.call_ask ((option.CE).bind Quotes.askprice))
          option.call_ask),
      ltp := toNumberOrNull
        (jsNullish option.call_ltp ((option.CE).bind Quotes.ltp)) }
  | .PUT =>
    { bid := toNumberOrNull
        (jsNullish (jsNullish option.put_bid ((option.PE).bind Quotes.bidprice))
          option.put_bid),
      ask := toNumberOrNull
        (jsNullish (jsNullish option.put_ask ((option.PE).bind Quotes.askprice))
          option.put_ask),
      ltp := toNumberOrNull
        (jsNullish option.put_ltp ((option.PE).bind Quotes.ltp)) }

/-- Embedding of `calculateButterflyRate`.  Bought legs use ask with
fallback to last traded price, the sold middle leg uses bid with the
same fallback; any price still missing afterwards makes the result
absent (`null` in the TS source). -/
def calculateButterflyRate (lowerStrike middleStrike upperStrike : ℚ)
    (optionData : List OptionRecord) (ty : OptionType) :
    Option ButterflyResult :=
  match optionData.find? (fun o => decide (o.strike_price = some lowerStrike)),
    optionData.find? (fun o => decide (o.strike_price = some middleStrike)),
    optionData.find? (fun o => decide (o.strike_price = some upperStrike)) with
  | some lowerOption, some middleOption, some upperOption =>
    match jsNullish (extract lowerOption ty).ask (extract lowerOption ty).ltp,
      jsNullish (extract middleOption ty).bid (extract middleOption ty).ltp,
      jsNullish (extract upperOption ty).ask (extract upperOption ty).ltp with
    | some lowerAsk, some middleBid, some upperAsk =>
      some { rate := lowerAsk - 2 * middleBid + upperAsk,
             firstLegPremium :=
               match ty with
               | .CALL => lowerAsk
               | .PUT => upperAsk }
    | _, _, _ => none
  | _, _, _ => none

/-- Embedding of `calculateValuePercent`. -/
def calculateValuePercent (butterflyRate firstLegPremium : ℚ) : ℚ :=
  if firstLegPremium ≤ 0 then 0
  else butterflyRate / firstLegPremium * 100

/-- Embedding of `getRecommendation` (the coarse classifier; its TS
return type is the 4-label subset of the recommendation union). -/
def getRecommendation (valuePercent : ℚ) : DetailedRecommendation :=
  if valuePercent ≤ 10 then .ENTRY
  else if valuePercent ≤ 15 then .HOLD
  else if valuePercent ≤ 20 then .HOLD
  else .AVOID

/-- Embedding of `getDetailedRecommendation`; the source's local
constants are `isNearATM = distanceFromATM ≤ 2` and
`hasGoodGap = gap ≤ 100`, inlined here. -/
def getDetailedRecommendation (valuePercent distanceFromATM gap : ℚ) :
    DetailedRecommendation :=
  if 25 < valuePercent then .EXIT
  else if 20 < valuePercent then .VALUE_BREACH
  else if valuePercent ≤ 10 ∧ distanceFromATM ≤ 2 ∧ gap ≤ 100 then .ENTRY
  else if valuePercent ≤ 10 ∧ distanceFromATM ≤ 2 then .PROFIT_BOOKING
  else if valuePercent ≤ 15 ∧ distanceFromATM ≤ 2 then .SCALE
  else if valuePercent ≤ 15 ∧ ¬distanceFromATM ≤ 2 then .HOLD
  else if valuePercent ≤ 20 ∧ ¬distanceFromATM ≤ 2 ∧ ¬gap ≤ 100 then
    .CHAIN_WARNING
  else if valuePercent ≤ 20 then .HOLD
  else .AVOID

/-- Priority list of section 4.4 of the specification, written from
the spec's words (for comparison against the source's classifier):
`>25 → EXIT; >20 → VALUE_BREACH; ≤10 ∧ nearATM ∧ goodGap → ENTRY;
≤10 ∧ nearATM → PROFIT_BOOKING; ≤15 ∧ nearATM → SCALE; ≤15 → HOLD;
≤20 ∧ not nearATM ∧ not goodGap → CHAIN_WARNING; ≤20 → HOLD;
else AVOID`. -/
def specDetailedRecommendation (valuePercent distanceFromATM gap : ℚ) :
    DetailedRecommendation :=
  if 25 < valuePercent then .EXIT
  else if 20 < valuePercent then .VALUE_BREACH
  else if valuePercent ≤ 10 ∧ distanceFromATM ≤ 2 ∧ gap ≤ 100 then .ENTRY
  else if valuePercent ≤ 10 ∧ distanceFromATM ≤ 2 then .PROFIT_BOOKING
  else if valuePercent ≤ 15 ∧ distanceFromATM ≤ 2 then .SCALE
  else if valuePercent ≤ 15 then .HOLD
  else if valuePercent ≤ 20 ∧ ¬distanceFromATM ≤ 2 ∧ ¬gap ≤ 100 then
    .CHAIN_WARNING
  else if valuePercent ≤ 20 then .HOLD
  else .AVOID

/-- Per-strike premium rule claimed by the specification ("premium is
`(bid+ask)/2` if both present, else fallback to last-traded-price,
else `0`"), written from the spec's words for comparison with the
source's computation. -/
def specPremium (bidOpt askOpt ltpOpt : Option ℚ) : ℚ :=
  match bidOpt, askOpt with
  | some b, some a => (b + a) / 2
  | _, _ => ltpOpt.getD 0

/-- One row of the chain matrix (`ButterflyData`); the TS `gaps`
object keyed `gap50`/`gap100`/... is an association list of
`(gap, rate, value)` triples. -/
structure ButterflyData where
  strike : ℚ
  premium : ℚ
  bid : ℚ
  ask : ℚ
  isATM : Bool
  gaps : List (ℚ × ℚ × ℚ)
deriving DecidableEq

/-- Strikes with a positive strike price, extracted from the
normalized chain
(`.filter(item.strike_price > 0).map(item.strike_price)`;
a row whose strike is absent fails the JS `> 0` comparison). -/
def positiveStrikes (optionData : List OptionRecord) : List ℚ :=
  optionData.filterMap
    (fun item =>
      match item.strike_price with
      | some v => if 0 < v then some v else none
      | none => none)

/-- ATM-strike selection, the `strikes.reduce` seeded with the first
strike: keep the incumbent unless the next strike is strictly closer
to spot. -/
def nearestStrike (strikes : List ℚ) (spotPrice : ℚ) : ℚ :=
  match strikes with
  | [] => 0
  | first :: rest =>
    rest.foldl
      (fun prev curr =>
        if |curr - spotPrice| < |prev - spotPrice| then curr else prev)
      first

/-- Body of the `strikes.map` of `calculateButterflyChain`: one
matrix row, with the per-strike premium
`(bid + ask) / 2 || ltp || 0` (absent bid/ask read as `0` by `?? 0`)
and one `(gap, rate, value)` entry per configured gap whose priced
rate is strictly positive. -/
def mkChainRow (optionData : List OptionRecord) (ty : OptionType)
    (gaps : List ℚ) (atmStrike strike : ℚ) : ButterflyData :=
  let option := optionData.find? (fun o => decide (o.strike_price = some strike))
  let bid : ℚ :=
    match ty with
    | .CALL => (option.bind OptionRecord.call_bid).getD 0
    | .PUT => (option.bind OptionRecord.put_bid).getD 0
  let ask : ℚ :=
    match ty with
    | .CALL => (option.bind OptionRecord.call_ask).getD 0
    | .PUT => (option.bind OptionRecord.put_ask).getD 0
  let ltpOpt : Option ℚ :=
    match ty with
    | .CALL => option.bind OptionRecord.call_ltp
    | .PUT => option.bind OptionRecord.put_ltp
  let premium : ℚ := jsNumOr ((bid + ask) / 2) (jsOptNumOr ltpOpt 0)
  let gapData : List (ℚ × ℚ × ℚ) :=
    gaps.filterMap
      (fun gap =>
        let lowerStrike : ℚ :=
          match ty with
          | .CALL => strike
          | .PUT => strike - gap * 2
        let middleStrike : ℚ :=
          match ty with
          | .CALL => strike + gap
          | .PUT => strike - gap
        let upperStrike : ℚ :=
          match ty with
          | .CALL => strike + gap * 2
          | .PUT => strike
        match calculateButterflyRate lowerStrike middleStrike upperStrike
          optionData ty with
        | some result =>
          if 0 < result.rate then
            some (gap, result.rate,
              calculateValuePercent result.rate result.firstLegPremium)
          else none
        | none => none)
  { strike := strike, premium := premium, bid := bid, ask := ask,
    isATM := decide (strike = atmStrike), gaps := gapData }

/-- Embedding of `calculateButterflyChain`: normalize, collect the
positive strikes (ascending for CALL, descending for PUT), tag the
ATM strike, and build one matrix row per strike. -/
def calculateButterflyChain (rawOptionData : List OptionRecord)
    (spotPrice : ℚ) (ty : OptionType)
    (gaps : List ℚ := [50, 100, 150, 200]) : List ButterflyData :=
  let optionData := transformOptionDataForButterfly rawOptionData
  if optionData = [] then []
  else
    let strikes :=
      match ty with
      | .CALL => List.insertionSort (fun a b : ℚ => a ≤ b) (positiveStrikes optionData)
      | .PUT => List.insertionSort (fun a b : ℚ => b ≤ a) (positiveStrikes optionData)
    if strikes = [] then []
    else
      let atmStrike := nearestStrike strikes spotPrice
      strikes.map (mkChainRow optionData ty gaps atmStrike)

/-- Shortlist entry (`ButterflyStrategy`).  The display-only
`strikeCombo` label string and the optional `alertType` /
`violatesChainConcept` / `violatesValueConcept` fields, which
`findBestStrategies` never sets, are omitted from the embedding. -/
structure ButterflyStrategy where
  type : OptionType
  strikes : ℚ × ℚ × ℚ
  gap : ℚ
  firstLegPremium : ℚ
  butterflyRate : ℚ
  valuePercent : ℚ
  distanceFromATM : ℚ
  recommendation : DetailedRecommendation
  isNearATM : Bool
  hasGoodGap : Bool
deriving DecidableEq

/-- ATM strike as `findBestStrategies` computes it: nearest strike
among the ascending-sorted positive strikes of the normalized chain. -/
def atmStrikeOf (rawOptionData : List OptionRecord) (spotPrice : ℚ) : ℚ :=
  nearestStrike
    (List.insertionSort (fun a b : ℚ => a ≤ b)
      (positiveStrikes (transformOptionDataForButterfly rawOptionData)))
    spotPrice

/-- Body of the per-base-strike loop of `findBestStrategies`:
`none` models `continue` (ITM base, missing leg, unpriceable or
filtered-out combination), `some` models the `strategies.push`. -/
def candidateStrategy (optionData : List OptionRecord)
    (atmStrike maxValuePercent : ℚ) (ty : OptionType) (gap baseStrike : ℚ) :
    Option ButterflyStrategy :=
  let lowerStrike : ℚ :=
    match ty with
    | .CALL => baseStrike
    | .PUT => baseStrike - gap * 2
  let middleStrike : ℚ :=
    match ty with
    | .CALL => baseStrike + gap
    | .PUT => baseStrike - gap
  let upperStrike : ℚ :=
    match ty with
    | .CALL => baseStrike + gap * 2
    | .PUT => baseStrike
  if (match ty with
      | .CALL => decide (lowerStrike < atmStrike)
      | .PUT => decide (atmStrike < upperStrike)) then none
  else if !(optionData.any (fun d => decide (d.strike_price = some lowerStrike)) &&
      optionData.any (fun d => decide (d.strike_price = some middleStrike)) &&
      optionData.any (fun d => decide (d.strike_price = some upperStrike))) then
    none
  else
    match calculateButterflyRate lowerStrike middleStrike upperStrike
      optionData ty with
    | none => none
    | some result =>
      if 0 < result.rate ∧ result.rate < result.firstLegPremium * (1 / 2) then
        let valuePercent :=
          calculateValuePercent result.rate result.firstLegPremium
        let distanceFromATM := |lowerStrike - atmStrike|
        if valuePercent ≤ maxValuePercent ∧ 0 < valuePercent then
          some { type := ty,
                 strikes := (lowerStrike, middleStrike, upperStrike),
                 gap := gap,
                 firstLegPremium := result.firstLegPremium,
                 butterflyRate := result.rate,
                 valuePercent := valuePercent,
                 distanceFromATM := ((round (distanceFromATM / 50) : ℤ) : ℚ),
                 recommendation := getRecommendation valuePercent,
                 isNearATM := decide (distanceFromATM ≤ 100),
                 hasGoodGap := decide (gap ≤ 100) }
        else none
      else none

/-- Final comparator of `findBestStrategies`
(`a.valuePercent - b.valuePercent`, ties by
`a.distanceFromATM - b.distanceFromATM`) as a total preorder. -/
def strategyLE (a b : ButterflyStrategy) : Prop :=
  a.valuePercent < b.valuePercent ∨
    (a.valuePercent = b.valuePercent ∧ a.distanceFromATM ≤ b.distanceFromATM)

instance strategyLE_decidable : DecidableRel strategyLE := fun a b =>
  inferInstanceAs
    (Decidable (a.valuePercent < b.valuePercent ∨
      (a.valuePercent = b.valuePercent ∧
        a.distanceFromATM ≤ b.distanceFromATM)))

instance strategyLE_isTotal : IsTotal ButterflyStrategy strategyLE := by
  constructor
  intro a b
  rcases lt_trichotomy a.valuePercent b.valuePercent with h | h | h
  · exact Or.inl (Or.inl h)
  · rcases le_total a.distanceFromATM b.distanceFromATM with hd | hd
    · exact Or.inl (Or.inr ⟨h, hd⟩)
    · exact Or.inr (Or.inr ⟨h.symm, hd⟩)
  · exact Or.inr (Or.inl h)

instance strategyLE_isTrans : IsTrans ButterflyStrategy strategyLE := by
  constructor
  intro a b c hab hbc
  rcases hab with h1 | ⟨h1, d1⟩ <;> rcases hbc with h2 | ⟨h2, d2⟩
  · exact Or.inl (h1.trans h2)
  · exact Or.inl (lt_of_lt_of_le h1 (le_of_eq h2))
  · exact Or.inl (lt_of_le_of_lt (le_of_eq h1) h2)
  · exact Or.inr ⟨h1.trans h2, d1.trans d2⟩

/-- Embedding of `findBestStrategies`: enumerate side x gap x base
strike in source order, filter through `candidateStrategy`, and sort
by ascending value percent with distance-from-ATM tie-break. -/
def findBestStrategies (rawOptionData : List OptionRecord) (spotPrice : ℚ)
    (maxValuePercent : ℚ := 20) : List ButterflyStrategy :=
  let optionData := transformOptionDataForButterfly rawOptionData
  if optionData = [] ∨ spotPrice = 0 then []
  else
    let strikes :=
      List.insertionSort (fun a b : ℚ => a ≤ b) (positiveStrikes optionData)
    if strikes = [] then []
    else
      let atmStrike := atmStrikeOf rawOptionData spotPrice
      let strategies :=
        ([OptionType.CALL, OptionType.PUT]).flatMap
          (fun ty =>
            ([(50 : ℚ), 100, 150, 200]).flatMap
              (fun gap =>
                strikes.filterMap
                  (fun baseStrike =>
                    candidateStrategy optionData atmStrike maxValuePercent
                      ty gap baseStrike)))
      List.insertionSort strategyLE strategies

/-- Embedding of `findBestTrades`: narrow the `maxValuePercent = 15`
shortlist to near-ATM, good-gap, good-value entries and cap at 8. -/
def findBestTrades (rawOptionData : List OptionRecord) (spotPrice : ℚ) :
    List ButterflyStrategy :=
  let allStrategies := findBestStrategies rawOptionData spotPrice 15
  (allStrategies.filter
    (fun strategy =>
      decide (strategy.valuePercent ≤ 15) &&
        decide (strategy.distanceFromATM ≤ 2) &&
        decide (strategy.gap ≤ 100))).take 8

/-- Premium expression the source actually computes per chain row,
written independently of `mkChainRow` for the amended claim C5: the
midpoint of the (`?? 0`-defaulted) bid and ask when that midpoint is
nonzero, else the side's last traded price when present and nonzero,
else `0`. -/
def codePremium (o : Option OptionRecord) (ty : OptionType) : ℚ :=
  let bid : ℚ :=
    match ty with
    | .CALL => (o.bind OptionRecord.call_bid).getD 0
    | .PUT => (o.bind OptionRecord.put_bid).getD 0
  let ask : ℚ :=
    match ty with
    | .CALL => (o.bind OptionRecord.call_ask).getD 0
    | .PUT => (o.bind OptionRecord.put_ask).getD 0
  let ltpOpt : Option ℚ :=
    match ty with
    | .CALL => o.bind OptionRecord.call_ltp
    | .PUT => o.bind OptionRecord.put_ltp
  if (bid + ask) / 2 ≠ 0 then (bid + ask) / 2
  else
    match ltpOpt with
    | some x => if x = 0 then 0 else x
    | none => 0

/-- Call-side row literal used by the concrete test chains. -/
def mkCallRow (strike : ℚ) (ltp bid ask : Option ℚ) : OptionRecord :=
  { emptyRecord with
    strike_price := some strike
    call_ltp := ltp
    call_bid := bid
    call_ask := ask }

@[simp] lemma mkCallRow_strike_price (s : ℚ) (l b a : Option ℚ) :
    (mkCallRow s l b a).strike_price = some s := rfl

@[simp] lemma mkCallRow_call_ltp (s : ℚ) (l b a : Option ℚ) :
    (mkCallRow s l b a).call_ltp = l := rfl

@[simp] lemma mkCallRow_call_bid (s : ℚ) (l b a : Option ℚ) :
    (mkCallRow s l b a).call_bid = b := rfl

@[simp] lemma mkCallRow_call_ask (s : ℚ) (l b a : Option ℚ) :
    (mkCallRow s l b a).call_ask = a := rfl

@[simp] lemma mkCallRow_CE (s : ℚ) (l b a : Option ℚ) :
    (mkCallRow s l b a).CE = none := rfl

@[simp] lemma mkCallRow_PE (s : ℚ) (l b a : Option ℚ) :
    (mkCallRow s l b a).PE = none := rfl

@[simp] lemma mkCallRow_put_ltp (s : ℚ) (l b a : Option ℚ) :
    (mkCallRow s l b a).put_ltp = none := rfl

@[simp] lemma mkCallRow_put_bid (s : ℚ) (l b a : Option ℚ) :
    (mkCallRow s l b a).put_bid = none := rfl

@[simp] lemma mkCallRow_put_ask (s : ℚ) (l b a : Option ℚ) :
    (mkCallRow s l b a).put_ask = none := rfl

/-- Evaluation helper: a CALL combination with a missing leg strike is
rejected. -/
lemma candidateStrategy_CALL_none_missing (od : List OptionRecord)
    (atm mvp gap base : ℚ)
    (h : (od.any (fun d => decide (d.strike_price = some base)) &&
        od.any (fun d => decide (d.strike_price = some (base + gap))) &&
        od.any (fun d => decide (d.strike_price = some (base + gap * 2)))) = false) :
    candidateStrategy od atm mvp OptionType.CALL gap base = none := by
  by_cases hb : base < atm
  · simp [candidateStrategy, hb]
  · simp [candidateStrategy, hb, h]

/-- Evaluation helper: a PUT combination with an in-the-money base
strike is skipped. -/
lemma candidateStrategy_PUT_skip (od : List OptionRecord)
    (atm mvp gap base : ℚ) (h : atm < base) :
    candidateStrategy od atm mvp OptionType.PUT gap base = none := by
  simp [candidateStrategy, h]

/-- Evaluation helper: a PUT combination with a missing leg strike is
rejected. -/
lemma candidateStrategy_PUT_none_missing (od : List OptionRecord)
    (atm mvp gap base : ℚ)
    (h : (od.any (fun d => decide (d.strike_price = some (base - gap * 2))) &&
        od.any (fun d => decide (d.strike_price = some (base - gap))) &&
        od.any (fun d => decide (d.strike_price = some base))) = false) :
    candidateStrategy od atm mvp OptionType.PUT gap base = none := by
  by_cases hb : atm < base
  · simp [candidateStrategy, hb]
  · simp [candidateStrategy, hb, h]

/-- Concrete three-strike call chain used as the witness input for the
ranking claims: strikes 100/150/200 with bid/ask quotes giving the
single strategy `demoStrategy` below. -/
def demoChain : List OptionRecord :=
  [mkCallRow 100 (some 99) (some 99) (some 100),
    mkCallRow 150 (some 50) (some 50) (some 51),
    mkCallRow 200 (some 10) (some 9) (some 10)]

/-- The one strategy `findBestStrategies demoChain 100` produces:
CALL 100-150-200, rate `100 - 2*50 + 10 = 10`, premium `100`,
value `10`%. -/
def demoStrategy : ButterflyStrategy :=
  { type := .CALL, strikes := (100, 150, 200), gap := 50,
    firstLegPremium := 100, butterflyRate := 10, valuePercent := 10,
    distanceFromATM := 0, recommendation := .ENTRY,
    isNearATM := true, hasGoodGap := true }

lemma transform_demo :
    transformOptionDataForButterfly demoChain =
      [mkCallRow 100 (some 99) (some 99) (some 100),
        mkCallRow 150 (some 50) (some 50) (some 51),
        mkCallRow 200 (some 10) (some 9) (some 10)] := by
  norm_num [transformOptionDataForButterfly, demoChain]

lemma cand_demo_some :
    candidateStrategy
      [mkCallRow 100 (some 99) (some 99) (some 100),
        mkCallRow 150 (some 50) (some 50) (some 51),
        mkCallRow 200 (some 10) (some 9) (some 10)]
      100 20 OptionType.CALL 50 100 = some demoStrategy := by
  norm_num [candidateStrategy, calculateButterflyRate, extract, toNumberOrNull,
    jsNullish, calculateValuePercent, getRecommendation, demoStrategy, round_eq]

lemma cand_demo_some15 :
    candidateStrategy
      [mkCallRow 100 (some 99) (some 99) (some 100),
        mkCallRow 150 (some 50) (some 50) (some 51),
        mkCallRow 200 (some 10) (some 9) (some 10)]
      100 15 OptionType.CALL 50 100 = some demoStrategy := by
  norm_num [candidateStrategy, calculateButterflyRate, extract, toNumberOrNull,
    jsNullish, calculateValuePercent, getRecommendation, demoStrategy, round_eq]

set_option maxHeartbeats 1000000 in
lemma fbs_demo : findBestStrategies demoChain 100 20 = [demoStrategy] := by
  simp only [findBestStrategies, atmStrikeOf]
  rw [transform_demo]
  rw [if_neg (by simp)]
  norm_num [positiveStrikes, nearestStrike]
  simp only [List.filterMap_cons, List.filterMap_nil]
  norm_num [cand_demo_some, candidateStrategy_CALL_none_missing,
    candidateStrategy_PUT_skip, candidateStrategy_PUT_none_missing]
  simp

set_option maxHeartbeats 1000000 in
lemma fbs_demo15 : findBestStrategies demoChain 100 15 = [demoStrategy] := by
  simp only [findBestStrategies, atmStrikeOf]
  rw [transform_demo]
  rw [if_neg (by simp)]
  norm_num [positiveStrikes, nearestStrike]
  simp only [List.filterMap_cons, List.filterMap_nil]
  norm_num [cand_demo_some15, candidateStrategy_CALL_none_missing,
    candidateStrategy_PUT_skip, candidateStrategy_PUT_none_missing]
  simp

lemma fbt_demo : findBestTrades demoChain 100 = [demoStrategy] := by
  norm_num [findBestTrades, fbs_demo15, demoStrategy]


/-- Every strategy in the output of `findBestStrategies` comes from
one `candidateStrategy` application against the normalized chain and
its ATM strike. -/
lemma exists_candidate_of_mem {raw : List OptionRecord} {spot mvp : ℚ}
    {s : ButterflyStrategy} (hs : s ∈ findBestStrategies raw spot mvp) :
    ∃ ty gap base,
      candidateStrategy (transformOptionDataForButterfly raw)
        (atmStrikeOf raw spot) mvp ty gap base = some s := by
  simp only [findBestStrategies] at hs
  split_ifs at hs with h1 h2
  · simp at hs
  · simp at hs
  · rw [List.mem_insertionSort] at hs
    simp only [List.mem_flatMap, List.mem_filterMap] at hs
    obtain ⟨ty, _, gap, _, base, _, hc⟩ := hs
    exact ⟨ty, gap, base, hc⟩

/-- Guard facts carried by every accepted `candidateStrategy`. -/
lemma candidateStrategy_spec {od : List OptionRecord} {atm mvp : ℚ}
    {ty : OptionType} {gap base : ℚ} {s : ButterflyStrategy}
    (h : candidateStrategy od atm mvp ty gap base = some s) :
    s.type = ty ∧ s.gap = gap ∧
      (s.type = OptionType.CALL → atm ≤ s.strikes.1) ∧
      (s.type = OptionType.PUT → s.strikes.2.2 ≤ atm) ∧
      0 < s.butterflyRate ∧
      s.butterflyRate < s.firstLegPremium * (1 / 2) ∧
      0 < s.valuePercent ∧ s.valuePercent ≤ mvp := by
  cases ty
  case CALL =>
    simp only [candidateStrategy] at h
    split at h
    · exact Option.noConfusion h
    next hlt =>
      split at h
      · exact Option.noConfusion h
      split at h
      · exact Option.noConfusion h
      next result heq =>
        split at h
        next hrate =>
          split at h
          next hvp =>
            rw [Option.some_inj] at h
            subst h
            refine ⟨rfl, rfl, fun _ => ?_, fun hPT => ?_, hrate.1, hrate.2,
              hvp.2, hvp.1⟩
            · simpa using not_lt.mp (by simpa using hlt)
            · exact absurd hPT (by simp)
          · exact Option.noConfusion h
        · exact Option.noConfusion h
  case PUT =>
    simp only [candidateStrategy] at h
    split at h
    · exact Option.noConfusion h
    next hlt =>
      split at h
      · exact Option.noConfusion h
      split at h
      · exact Option.noConfusion h
      next result heq =>
        split at h
        next hrate =>
          split at h
          next hvp =>
            rw [Option.some_inj] at h
            subst h
            refine ⟨rfl, rfl, fun hCT => ?_, fun _ => ?_, hrate.1, hrate.2,
              hvp.2, hvp.1⟩
            · exact absurd hCT (by simp)
            · simpa using not_lt.mp (by simpa using hlt)
          · exact Option.noConfusion h
        · exact Option.noConfusion h


/-- Claim C1: when the three strikes are found in the chain and the
ask/bid-with-LTP-fallback prices are all present, the pricer returns
rate `lowerAsk - 2 * middleBid + upperAsk` with reference premium
`lowerAsk` for CALL and `upperAsk` for PUT. -/
theorem calculateButterflyRate_formula :
    ∀ (optionData : List OptionRecord) (lowerStrike middleStrike upperStrike : ℚ)
      (ty : OptionType) (lo mi up : OptionRecord) (la mb ua : ℚ),
      optionData.find? (fun o => decide (o.strike_price = some lowerStrike)) = some lo →
      optionData.find? (fun o => decide (o.strike_price = some middleStrike)) = some mi →
      optionData.find? (fun o => decide (o.strike_price = some upperStrike)) = some up →
      jsNullish (extract lo ty).ask (extract lo ty).ltp = some la →
      jsNullish (extract mi ty).bid (extract mi ty).ltp = some mb →
      jsNullish (extract up ty).ask (extract up ty).ltp = some ua →
      calculateButterflyRate lowerStrike middleStrike upperStrike optionData ty =
        some { rate := la - 2 * mb + ua,
               firstLegPremium :=
                 match ty with
                 | .CALL => la
                 | .PUT => ua } := by
  intro od l m u ty lo mi up la mb ua h1 h2 h3 h4 h5 h6
  unfold calculateButterflyRate
  rw [h1, h2, h3]
  dsimp only
  rw [h4, h5, h6]

def c1low : OptionRecord := mkCallRow 100 none none (some 100)

def c1mid : OptionRecord := mkCallRow 150 none (some 40) none

def c1up : OptionRecord := mkCallRow 200 none none (some 95)

def c1chain : List OptionRecord := [c1low, c1mid, c1up]

/-- Witness for C1: the spec's concrete example, lowerAsk 100,
middleBid 40, upperAsk 95 on side CALL gives rate 115, premium 100
and value percentage 115. -/
theorem calculateButterflyRate_formula_witness :
    calculateButterflyRate 100 150 200 c1chain OptionType.CALL =
        some { rate := 115, firstLegPremium := 100 } ∧
      calculateValuePercent 115 100 = 115 := by
  constructor
  · have h := calculateButterflyRate_formula c1chain 100 150 200 OptionType.CALL
      c1low c1mid c1up 100 40 95 rfl rfl rfl rfl rfl rfl
    rw [h]
    norm_num [ButterflyResult.mk.injEq]
  · norm_num [calculateValuePercent]


/-- Claim C2: the detailed classifier is total and follows the spec's
strict priority order; in particular value 30 is always EXIT. -/
theorem getDetailedRecommendation_priority :
    (∀ vp d g : ℚ,
        getDetailedRecommendation vp d g = specDetailedRecommendation vp d g) ∧
      ∀ d g : ℚ, getDetailedRecommendation 30 d g = DetailedRecommendation.EXIT := by
  constructor
  · intro vp d g
    unfold getDetailedRecommendation specDetailedRecommendation
    split_ifs <;> first | rfl | tauto
  · intro d g
    unfold getDetailedRecommendation
    rw [if_pos (by norm_num)]

/-- Claim C10: the classifier's range misses AVOID; every triple maps
into the other 7 labels. -/
theorem getDetailedRecommendation_range :
    ∀ vp d g : ℚ,
      getDetailedRecommendation vp d g ∈
        [DetailedRecommendation.EXIT, DetailedRecommendation.VALUE_BREACH,
          DetailedRecommendation.ENTRY, DetailedRecommendation.PROFIT_BOOKING,
          DetailedRecommendation.SCALE, DetailedRecommendation.HOLD,
          DetailedRecommendation.CHAIN_WARNING] := by
  intro vp d g
  unfold getDetailedRecommendation
  split_ifs with h1 h2 h3 h4 h5 h6 h7 h8 <;> first
    | exact absurd (le_of_not_lt h2) h8
    | simp

/-- Claim C3: CALL strategies in the ranker's output start at or above
the ATM strike and PUT strategies end at or below it. -/
theorem findBestStrategies_atm_otm_only :
    ∀ (raw : List OptionRecord) (spot mvp : ℚ),
      ∀ s ∈ findBestStrategies raw spot mvp,
        (s.type = OptionType.CALL → atmStrikeOf raw spot ≤ s.strikes.1) ∧
          (s.type = OptionType.PUT → s.strikes.2.2 ≤ atmStrikeOf raw spot) := by
  intro raw spot mvp s hs
  obtain ⟨ty, gap, base, hc⟩ := exists_candidate_of_mem hs
  have spec := candidateStrategy_spec hc
  exact ⟨spec.2.2.1, spec.2.2.2.1⟩

/-- Witness for C3 on the concrete demo chain. -/
theorem findBestStrategies_atm_otm_only_witness :
    demoStrategy ∈ findBestStrategies demoChain 100 20 ∧
      atmStrikeOf demoChain 100 ≤ demoStrategy.strikes.1 := by
  have hm : demoStrategy ∈ findBestStrategies demoChain 100 20 := by
    rw [fbs_demo]; exact List.mem_singleton.mpr rfl
  exact ⟨hm, (findBestStrategies_atm_otm_only demoChain 100 20 demoStrategy hm).1 rfl⟩

/-- Claim C4: every ranked strategy has positive rate below half the
reference premium and value percent in `(0, maxValuePercent]`. -/
theorem findBestStrategies_rate_bounds :
    ∀ (raw : List OptionRecord) (spot mvp : ℚ),
      ∀ s ∈ findBestStrategies raw spot mvp,
        0 < s.butterflyRate ∧
          s.butterflyRate < s.firstLegPremium * (1 / 2) ∧
          0 < s.valuePercent ∧ s.valuePercent ≤ mvp := by
  intro raw spot mvp s hs
  obtain ⟨ty, gap, base, hc⟩ := exists_candidate_of_mem hs
  have spec := candidateStrategy_spec hc
  exact ⟨spec.2.2.2.2.1, spec.2.2.2.2.2.1, spec.2.2.2.2.2.2.1,
    spec.2.2.2.2.2.2.2⟩

/-- Witness for C4 on the concrete demo chain. -/
theorem findBestStrategies_rate_bounds_witness :
    demoStrategy ∈ findBestStrategies demoChain 100 20 ∧
      0 < demoStrategy.butterflyRate ∧
      demoStrategy.butterflyRate < demoStrategy.firstLegPremium * (1 / 2) ∧
      0 < demoStrategy.valuePercent ∧ demoStrategy.valuePercent ≤ 20 := by
  have hm : demoStrategy ∈ findBestStrategies demoChain 100 20 := by
    rw [fbs_demo]; exact List.mem_singleton.mpr rfl
  exact ⟨hm, findBestStrategies_rate_bounds demoChain 100 20 demoStrategy hm⟩

/-- Claim C6: the ranker's output is sorted by ascending value percent
with ascending distance-from-ATM tie-break. -/
theorem findBestStrategies_sorted :
    ∀ (raw : List OptionRecord) (spot mvp : ℚ),
      List.Sorted strategyLE (findBestStrategies raw spot mvp) := by
  intro raw spot mvp
  simp only [findBestStrategies]
  split_ifs <;>
    first
      | exact List.sorted_nil
      | exact List.sorted_insertionSort strategyLE _

/-- Claim C7: `findBestTrades` returns at most 8 entries, all with
value percent at most 15, distance at most 2 and gap at most 100. -/
theorem findBestTrades_bounds :
    ∀ (raw : List OptionRecord) (spot : ℚ),
      (findBestTrades raw spot).length ≤ 8 ∧
        ∀ s ∈ findBestTrades raw spot,
          s.valuePercent ≤ 15 ∧ s.distanceFromATM ≤ 2 ∧ s.gap ≤ 100 := by
  intro raw spot
  constructor
  · simp only [findBestTrades]
    rw [List.length_take]
    exact min_le_left _ _
  · intro s hs
    simp only [findBestTrades] at hs
    have hs2 := List.take_subset _ _ hs
    rw [List.mem_filter] at hs2
    obtain ⟨-, hp⟩ := hs2
    simp only [Bool.and_eq_true, decide_eq_true_eq] at hp
    exact ⟨hp.1.1, hp.1.2, hp.2⟩

/-- Witness for C7 on the concrete demo chain. -/
theorem findBestTrades_bounds_witness :
    (findBestTrades demoChain 100).length ≤ 8 ∧
      demoStrategy ∈ findBestTrades demoChain 100 ∧
      demoStrategy.valuePercent ≤ 15 ∧ demoStrategy.distanceFromATM ≤ 2 ∧
      demoStrategy.gap ≤ 100 := by
  have hm : demoStrategy ∈ findBestTrades demoChain 100 := by
    rw [fbt_demo]; exact List.mem_singleton.mpr rfl
  exact ⟨(findBestTrades_bounds demoChain 100).1, hm,
    (findBestTrades_bounds demoChain 100).2 demoStrategy hm⟩

/-- Claim C8: a non-positive reference premium forces value percent 0,
and every ranked strategy has strictly positive value percent. -/
theorem calculateValuePercent_zero_guard :
    ∀ (rate fp : ℚ) (raw : List OptionRecord) (spot mvp : ℚ),
      (fp ≤ 0 → calculateValuePercent rate fp = 0) ∧
        ∀ s ∈ findBestStrategies raw spot mvp, 0 < s.valuePercent := by
  intro rate fp raw spot mvp
  constructor
  · intro hfp
    simp [calculateValuePercent, hfp]
  · intro s hs
    obtain ⟨ty, gap, base, hc⟩ := exists_candidate_of_mem hs
    exact (candidateStrategy_spec hc).2.2.2.2.2.2.1

/-- Witness for C8: premium 0 yields value 0, and the demo strategy's
value percent is positive. -/
theorem calculateValuePercent_zero_guard_witness :
    calculateValuePercent 5 0 = 0 ∧ 0 < demoStrategy.valuePercent := by
  have hm : demoStrategy ∈ findBestStrategies demoChain 100 20 := by
    rw [fbs_demo]; exact List.mem_singleton.mpr rfl
  exact ⟨(calculateValuePercent_zero_guard 5 0 demoChain 100 20).1 le_rfl,
    (calculateValuePercent_zero_guard 5 0 demoChain 100 20).2 demoStrategy hm⟩


/-- Claim C5 (amended): the per-strike chain premium is the midpoint
of the `?? 0`-defaulted bid and ask when that midpoint is nonzero,
else the side's last traded price when present and nonzero, else 0
(`(bid + ask) / 2 || ltp || 0`). -/
theorem calculateButterflyChain_premium_formula :
    ∀ (raw : List OptionRecord) (spot : ℚ) (ty : OptionType) (gaps : List ℚ),
      ∀ d ∈ calculateButterflyChain raw spot ty gaps,
        d.premium =
          codePremium
            ((transformOptionDataForButterfly raw).find?
              (fun o => decide (o.strike_price = some d.strike))) ty := by
  intro raw spot ty gaps d hd
  cases ty <;>
    (simp only [calculateButterflyChain] at hd
     split_ifs at hd with h1 h2
     · simp at hd
     · simp at hd
     · rw [List.mem_map] at hd
       obtain ⟨strike, hmem, rfl⟩ := hd
       simp only [mkChainRow, codePremium, jsNumOr, jsOptNumOr]
       split_ifs <;> first | rfl | tauto)

def c5row : OptionRecord := mkCallRow 100 (some 7) (some 10) none

def c5data : ButterflyData :=
  { strike := 100, premium := 5, bid := 10, ask := 0, isATM := true,
    gaps := [] }

lemma chain_c5_eval :
    calculateButterflyChain [c5row] 100 OptionType.CALL [50, 100, 150, 200] =
      [c5data] := by
  norm_num [calculateButterflyChain, transformOptionDataForButterfly, c5row,
    positiveStrikes, nearestStrike, mkChainRow, jsNumOr, jsOptNumOr,
    calculateButterflyRate, c5data]

/-- Counterexample to claim C5 as stated: with `call_bid = 10`,
`call_ask` absent and `call_ltp = 7`, the code computes premium
`(10 + 0) / 2 = 5`, while the claimed rule (fall back to the last
traded price when ask is missing) gives `7`. -/
theorem calculateButterflyChain_premium_counterexample :
    (calculateButterflyChain [c5row] 100 OptionType.CALL
        [50, 100, 150, 200]).map ButterflyData.premium = [5] ∧
      specPremium c5row.call_bid c5row.call_ask c5row.call_ltp = 7 ∧
      (5 : ℚ) ≠ 7 := by
  refine ⟨?_, ?_, by norm_num⟩
  · rw [chain_c5_eval]
    norm_num [c5data]
  · norm_num [specPremium, c5row]

/-- Witness for the amended C5 on the counterexample chain. -/
theorem calculateButterflyChain_premium_formula_witness :
    c5data ∈ calculateButterflyChain [c5row] 100 OptionType.CALL
        [50, 100, 150, 200] ∧
      c5data.premium =
        codePremium
          ((transformOptionDataForButterfly [c5row]).find?
            (fun o => decide (o.strike_price = some c5data.strike)))
          OptionType.CALL := by
  have hm : c5data ∈ calculateButterflyChain [c5row] 100 OptionType.CALL
      [50, 100, 150, 200] := by
    rw [chain_c5_eval]
    exact List.mem_singleton.mpr rfl
  exact ⟨hm, calculateButterflyChain_premium_formula [c5row] 100
    OptionType.CALL [50, 100, 150, 200] c5data hm⟩

def c9rowA : OptionRecord :=
  { emptyRecord with
    strike_price := some 150
    option_type := some "CE"
    bid_price := some 50 }

def c9rowB : OptionRecord :=
  { emptyRecord with
    strike_price := some 150
    option_type := some "CE"
    ask_price := some 51 }

def c9merged : OptionRecord :=
  { emptyRecord with
    strike_price := some 150
    call_bid := some 50
    call_ask := some 51
    CE := some { bidprice := some 50, askprice := some 51, ltp := none } }

/-- Claim C9: two raw rows for the same strike carrying only
`call_bid` and only `call_ask` merge into one record with both fields
set, and on raw (not yet transformed) input the normalizer's output is
sorted ascending by strike. -/
theorem transform_merges_split_rows :
    (transformOptionDataForButterfly [c9rowA, c9rowB] = [c9merged]) ∧
      ∀ raw : List OptionRecord,
        (∀ r ∈ raw, r.call_ltp = none ∧ r.put_ltp = none) →
          List.Sorted recordLE (transformOptionDataForButterfly raw) := by
  constructor
  · rfl
  · intro raw hraw
    unfold transformOptionDataForButterfly
    have hcond : raw.any (fun d => d.call_ltp.isSome || d.put_ltp.isSome) = false := by
      rw [List.any_eq_false]
      intro d hd
      simp [(hraw d hd).1, (hraw d hd).2]
    rw [if_neg (by simp [hcond])]
    exact List.sorted_insertionSort recordLE _

/-- Witness for C9's sortedness on the two-row raw chain. -/
theorem transform_merges_split_rows_witness :
    (∀ r ∈ [c9rowA, c9rowB], r.call_ltp = none ∧ r.put_ltp = none) ∧
      List.Sorted recordLE (transformOptionDataForButterfly [c9rowA, c9rowB]) := by
  have hh : ∀ r ∈ [c9rowA, c9rowB], r.call_ltp = none ∧ r.put_ltp = none := by
    intro r hr
    simp only [List.mem_cons, List.mem_singleton] at hr
    rcases hr with rfl | rfl | h
    · exact ⟨rfl, rfl⟩
    · exact ⟨rfl, rfl⟩
    · simp at h
  exact ⟨hh, (transform_merges_split_rows).2 [c9rowA, c9rowB] hh⟩

end Butterfly
